import Mathlib

/-!
Verification of the co-snarks core against its specification.

This file gives a shallow embedding, in Lean 4, of the correctness-critical
parts of the repository:

* `mpc-core/src/protocols/rep3/yao/garbler.rs` — the `Rep3Garbler` for the
  three-party garbled-circuit protocol (block buffering vs. incremental
  hashing, circuit transmission, output decoding);
* `co-circom/co-circom-snarks/src/lib.rs` — the shared-input data model
  (`SerializeableSharedRep3Input`, `SharedInput`) with its pairwise `merge`
  and N-ary `build_from_sources` operations, and the witness-sharing
  entry points (`share_rep3`, `share_shamir`).

Machine integers and 128-bit wire labels are embedded as `Nat` (XOR never
overflows, so no explicit modulus is needed); field elements are embedded
over an arbitrary commutative ring; fallible Rust code returns `Except`
or `Option`, with `Option.none` standing for a Rust panic and a dedicated
error constructor standing for a `todo!()` panic where the distinction
matters. The incremental SHA3-256 accumulator of the `sha3` crate (an
external dependency) is embedded by its absorbed byte stream, with the
final digest an arbitrary function of that stream.
-/

namespace CoSnarks

/-- Party identities of the replicated three-party protocol
(`mpc-core/src/protocols/rep3/id.rs`). -/
inductive PartyID where
  | ID0 : PartyID
  | ID1 : PartyID
  | ID2 : PartyID
deriving DecidableEq, Repr

/-- Wire labels and garbled-gate blocks (`scuttlebutt::Block`, 16 bytes /
128 bits) are embedded as natural numbers below `2 ^ 128`; the claims only
use equality and XOR, and XOR of two values below `2 ^ 128` stays below
`2 ^ 128`, so no explicit modulus is needed. -/
abbrev Block := Nat

/-- Byte decomposition of a 16-byte block, least significant byte first.
This is the byte stream `block.as_ref()` that `Sha3_256::update` absorbs
and that `send_many` puts on the wire for a `[u8; 16]`. -/
def blockBytes (b : Block) : List Nat :=
  (List.range 16).map (fun i => b / 256 ^ i % 256)

/-- Embedding of the parts of `IoContext` the garbler reads at
construction time: the own party id, and the garbler seed that the
correlated rngs would produce for this party. -/
structure IoContext where
  id : PartyID
  garblerSeed : Nat
deriving DecidableEq, Repr

/-- Modelled from the spec: `IoContext::rngs.generate_garbler_randomness`
lives in `mpc-core/src/protocols/rep3/rngs.rs`, which is not part of the
sources; per spec §4.4 and §7 a garbler invoked under the evaluator role
(`PartyID::ID0`) is a fatal role-invariant violation at construction time,
so the evaluator obtains no garbler randomness (`none` embeds the panic);
the two garbler roles obtain their seed. -/
def generate_garbler_randomness (ctx : IoContext) : Option Nat :=
  match ctx.id with
  | .ID0 => none
  | .ID1 => some ctx.garblerSeed
  | .ID2 => some ctx.garblerSeed

/-- Embedding of `Rep3Garbler` (garbler.rs, lines 26–34).  The `hash`
field embeds the incremental `Sha3_256` accumulator by the byte stream it
has absorbed so far; `rng` embeds `RngType::from_seed(seed)` by its seed;
`circuit` is the buffered `Vec<[u8; 16]>`. -/
structure Rep3Garbler where
  id : PartyID
  delta : Block
  current_output : Nat
  current_gate : Nat
  rng : Nat
  hash : List Nat
  circuit : List Block
deriving DecidableEq, Repr

/-- Embedding of `Rep3Garbler::new_with_delta` (garbler.rs, lines 45–59):
draw the garbler randomness for the own id (fatal for `ID0`), seed the rng
with it, and start with an empty hash accumulator and an empty circuit
buffer. -/
def new_with_delta (ctx : IoContext) (delta : Block) : Option Rep3Garbler :=
  (generate_garbler_randomness ctx).map (fun seed =>
    { id := ctx.id
      delta := delta
      current_output := 0
      current_gate := 0
      rng := seed
      hash := []
      circuit := [] })

/-- Embedding of `Rep3Garbler::new` (garbler.rs, lines 38–42):
`new_with_delta` with the default delta, then a fresh random delta drawn
from the garbler rng (`GCUtils::random_delta` is embedded as an arbitrary
function `random_delta` of the rng state). -/
def new (random_delta : Nat → Block) (ctx : IoContext) : Option Rep3Garbler :=
  (new_with_delta ctx 0).map (fun g => { g with delta := random_delta g.rng })

/-- Embedding of `Rep3Garbler::add_block_to_circuit` (garbler.rs, lines
62–76): `ID0` panics (`none`), `ID1` pushes the 16-byte block onto the
circuit buffer, `ID2` absorbs the block's bytes into the running hash. -/
def add_block_to_circuit (g : Rep3Garbler) (block : Block) : Option Rep3Garbler :=
  match g.id with
  | .ID0 => none
  | .ID1 => some { g with circuit := g.circuit ++ [block] }
  | .ID2 => some { g with hash := g.hash ++ blockBytes block }

/-- Driving a garbler through a finite sequence of gate blocks, in order. -/
def add_blocks_to_circuit (g : Rep3Garbler) (blocks : List Block) : Option Rep3Garbler :=
  blocks.foldlM add_block_to_circuit g

/-- What `send_circuit` puts on the wire towards the evaluator: the
buffering garbler sends the full list of blocks, the hashing garbler sends
only a digest (of type `D`, the output type of the hash function). -/
inductive CircuitMessage (D : Type) where
  | blocks : List Block → CircuitMessage D
  | digest : D → CircuitMessage D
deriving DecidableEq

/-- Embedding of `Rep3Garbler::send_circuit` (garbler.rs, lines 79–107):
`ID0` panics; `ID1` swaps out and sends the buffered circuit; `ID2` swaps
out the hash accumulator, finalizes it and sends the digest.  The SHA3-256
finalization of the absorbed byte stream is the parameter `H` (the `sha3`
crate is an external dependency; its incremental API digests exactly the
concatenation of the absorbed bytes). -/
def send_circuit {D : Type} (H : List Nat → D) (g : Rep3Garbler) :
    Option (CircuitMessage D × Rep3Garbler) :=
  match g.id with
  | .ID0 => none
  | .ID1 => some (.blocks g.circuit, { g with circuit := [] })
  | .ID2 => some (.digest (H g.hash), { g with hash := [] })

/-- Per-wire classification loop of `output_garbler` (garbler.rs, lines
152–164): the received block against the wire's zero label, with
`zero.plus(delta)` the XOR of the two labels (`WireMod2` addition is XOR). -/
def output_garbler_loop (delta : Block) : List (Block × Block) → Except String (List Bool)
  | [] => .ok []
  | (block, zr) :: rest =>
    if block = zr then
      (output_garbler_loop delta rest).map (fun r => false :: r)
    else if block = Nat.xor zr delta then
      (output_garbler_loop delta rest).map (fun r => true :: r)
    else
      .error "Invalid block received"

/-- Embedding of `Rep3Garbler::output_garbler` (garbler.rs, lines
143–166).  `rcv` is the list of blocks `read_blocks` returned from the
evaluator, `x` the list of zero labels of the output wires. -/
def output_garbler (g : Rep3Garbler) (rcv : List Block) (x : List Block) :
    Except String (List Bool) :=
  if rcv.length ≠ x.length then
    .error "Invalid number of blocks received"
  else
    output_garbler_loop g.delta (rcv.zip x)

lemma add_blocks_ID1 (bs : List Block) :
    ∀ g : Rep3Garbler, g.id = .ID1 →
      add_blocks_to_circuit g bs = some { g with circuit := g.circuit ++ bs } := by
  induction bs with
  | nil =>
    intro g hid
    simp [add_blocks_to_circuit]
  | cons b bs ih =>
    intro g hid
    obtain ⟨gid, gd, go, gg, gr, gh, gc⟩ := g
    subst hid
    simp only [add_blocks_to_circuit, List.foldlM_cons, add_block_to_circuit]
    simpa [add_blocks_to_circuit, List.append_assoc] using
      ih { id := .ID1, delta := gd, current_output := go, current_gate := gg,
           rng := gr, hash := gh, circuit := gc ++ [b] } rfl

lemma add_blocks_ID2 (bs : List Block) :
    ∀ g : Rep3Garbler, g.id = .ID2 →
      add_blocks_to_circuit g bs
        = some { g with hash := g.hash ++ (bs.map blockBytes).flatten } := by
  induction bs with
  | nil =>
    intro g hid
    simp [add_blocks_to_circuit]
  | cons b bs ih =>
    intro g hid
    obtain ⟨gid, gd, go, gg, gr, gh, gc⟩ := g
    subst hid
    simp only [add_blocks_to_circuit, List.foldlM_cons, add_block_to_circuit]
    simpa [add_blocks_to_circuit, List.append_assoc] using
      ih { id := .ID2, delta := gd, current_output := go, current_gate := gg,
           rng := gr, hash := gh ++ blockBytes b, circuit := gc } rfl

/-- C1: for every finite sequence of 16-byte gate blocks, driving the
buffering garbler (`PartyID::ID1`) and the hashing garbler (`PartyID::ID2`)
through the identical blocks in the identical order and then calling
`send_circuit` on each, the buffering garbler transmits exactly that block
sequence and the hashing garbler transmits exactly the SHA3-256 digest
(embedded as an arbitrary finalization function `H` of the absorbed byte
stream) of the concatenation of the transmitted blocks' bytes: buffering
then hashing the buffered bytes equals incrementally hashing each block as
it is added. -/
theorem garbler_digest_matches_buffered_circuit {D : Type} (H : List Nat → D)
    (bs : List Block) (s1 s2 d1 d2 : Nat) :
    ((((new_with_delta ⟨.ID1, s1⟩ d1).bind (fun g => add_blocks_to_circuit g bs)).bind
        (send_circuit H)).map Prod.fst = some (.blocks bs)) ∧
    ((((new_with_delta ⟨.ID2, s2⟩ d2).bind (fun g => add_blocks_to_circuit g bs)).bind
        (send_circuit H)).map Prod.fst
      = some (.digest (H (bs.map blockBytes).flatten))) := by
  constructor
  · rw [show new_with_delta ⟨.ID1, s1⟩ d1
        = some { id := .ID1, delta := d1, current_output := 0, current_gate := 0,
                 rng := s1, hash := [], circuit := [] } from rfl]
    rw [Option.some_bind, add_blocks_ID1 bs _ rfl, Option.some_bind]
    simp [send_circuit]
  · rw [show new_with_delta ⟨.ID2, s2⟩ d2
        = some { id := .ID2, delta := d2, current_output := 0, current_gate := 0,
                 rng := s2, hash := [], circuit := [] } from rfl]
    rw [Option.some_bind, add_blocks_ID2 bs _ rfl, Option.some_bind]
    simp [send_circuit]

/-- C4: constructing a `Rep3Garbler` under the evaluator identity
(`PartyID::ID0`) fails fatally at construction time — both `new_with_delta`
and `new` yield no garbler state at all, so no gate operation can ever be
processed — while construction under either garbler identity succeeds. -/
theorem garbler_construction_fails_for_ID0 (s d : Nat) (random_d : Nat → Block) :
    new_with_delta ⟨.ID0, s⟩ d = none ∧
    new random_d ⟨.ID0, s⟩ = none ∧
    (new_with_delta ⟨.ID1, s⟩ d).isSome = true ∧
    (new_with_delta ⟨.ID2, s⟩ d).isSome = true := by
  refine ⟨rfl, ?_, rfl, rfl⟩
  simp [new, new_with_delta, generate_garbler_randomness]

lemma output_garbler_loop_all_valid (delta : Block) :
    ∀ ps : List (Block × Block),
      (∀ p ∈ ps, p.1 = p.2 ∨ p.1 = Nat.xor p.2 delta) →
      output_garbler_loop delta ps = .ok (ps.map (fun p => decide (p.1 ≠ p.2))) := by
  intro ps
  induction ps with
  | nil => intro _; rfl
  | cons p rest ih =>
    intro hall
    have hrest := ih (fun q hq => hall q (List.mem_cons_of_mem p hq))
    have hp := hall p (List.mem_cons_self p rest)
    by_cases hb : p.1 = p.2
    · simp [output_garbler_loop, hb, hrest, Except.map]
    · rcases hp with hp | hp
      · exact absurd hp hb
      · simp only [output_garbler_loop, hp, hrest, Except.map]
        rw [if_neg (by rw [← hp]; exact hb)]
        simp [← hp, hb]

lemma output_garbler_loop_invalid (delta : Block) :
    ∀ ps : List (Block × Block),
      (∃ p ∈ ps, p.1 ≠ p.2 ∧ p.1 ≠ Nat.xor p.2 delta) →
      output_garbler_loop delta ps = .error "Invalid block received" := by
  intro ps
  induction ps with
  | nil => rintro ⟨p, hp, -⟩; cases hp
  | cons p rest ih =>
    rintro ⟨q, hq, hq1, hq2⟩
    rcases List.mem_cons.mp hq with rfl | hq
    · simp [output_garbler_loop, hq1, hq2]
    · by_cases hb : p.1 = p.2
      · simp [output_garbler_loop, hb, ih ⟨q, hq, hq1, hq2⟩, Except.map]
      · by_cases hd : p.1 = Nat.xor p.2 delta
        · simp [output_garbler_loop, hb, hd, ih ⟨q, hq, hq1, hq2⟩, Except.map]
        · simp [output_garbler_loop, hb, hd]

/-- C2: `output_garbler` first errors with invalid data when the number of
received blocks differs from the number of output wires; with matching
counts it classifies each received block against the wire's zero label:
equal to the zero label gives bit 0 (`false`), equal to the zero label XOR
delta gives bit 1 (`true`, recorded as "received block differs from zero
label"), and any block equal to neither yields the malformed-data error
with no result vector at all. -/
theorem output_garbler_spec (g : Rep3Garbler) (x rcv : List Block) :
    (rcv.length ≠ x.length →
      output_garbler g rcv x = .error "Invalid number of blocks received") ∧
    (rcv.length = x.length →
      ((∀ p ∈ rcv.zip x, p.1 = p.2 ∨ p.1 = Nat.xor p.2 g.delta) →
        output_garbler g rcv x = .ok ((rcv.zip x).map (fun p => decide (p.1 ≠ p.2)))) ∧
      ((∃ p ∈ rcv.zip x, p.1 ≠ p.2 ∧ p.1 ≠ Nat.xor p.2 g.delta) →
        output_garbler g rcv x = .error "Invalid block received")) := by
  refine ⟨fun hne => by simp [output_garbler, hne], fun heq => ⟨fun hall => ?_, fun hbad => ?_⟩⟩
  · simp [output_garbler, heq, output_garbler_loop_all_valid g.delta _ hall]
  · simp [output_garbler, heq, output_garbler_loop_invalid g.delta _ hbad]

/-- Concrete garbler state used to evaluate `output_garbler`: a buffering
garbler with delta 1. -/
def gW : Rep3Garbler :=
  { id := .ID1, delta := 1, current_output := 0, current_gate := 0,
    rng := 0, hash := [], circuit := [] }

/-- C2 witness: at delta 1 with zero labels `[6, 5]`, receiving `[6, 4]`
decodes to bits `[false, true]` (6 is the zero label, 4 is 5 XOR 1), and
receiving a single block errors with the count mismatch. -/
theorem output_garbler_spec_witness :
    output_garbler gW [6, 4] [6, 5] = .ok [false, true] ∧
    output_garbler gW [9] [6, 5] = .error "Invalid number of blocks received" := by
  constructor
  · have h := ((output_garbler_spec gW [6, 5] [6, 4]).2 (by decide)).1 (by decide)
    simpa using h
  · exact (output_garbler_spec gW [6, 5] [9]).1 (by decide)

/-!
Shared-input data model, `co-circom/co-circom-snarks/src/lib.rs`.

A `BTreeMap<String, V>` is embedded as a list of key/value pairs kept
sorted by key (`SMap`): lookup, insert (returning the previous value, as
`BTreeMap::insert` does), remove (returning the removed value), and
iteration in key order (the list itself).
-/

/-- Embedding of `BTreeMap<String, α>`: an association list sorted
strictly by key. -/
abbrev SMap (α : Type) := List (String × α)

/-- Lookup of a key, `BTreeMap::get` / `contains_key`. -/
def SMap.find? {α : Type} : SMap α → String → Option α
  | [], _ => none
  | (k, v) :: rest, key => if key = k then some v else SMap.find? rest key

/-- Membership test, `BTreeMap::contains_key`. -/
def SMap.containsKey {α : Type} (m : SMap α) (key : String) : Bool :=
  (m.find? key).isSome

/-- Sorted insert, `BTreeMap::insert`: stores the value under the key and
returns the updated map together with the previously stored value. -/
def SMap.insert {α : Type} : SMap α → String → α → SMap α × Option α
  | [], key, v => ([(key, v)], none)
  | (k, w) :: rest, key, v =>
    if key = k then ((key, v) :: rest, some w)
    else if key < k then ((key, v) :: (k, w) :: rest, none)
    else
      let r := SMap.insert rest key v
      ((k, w) :: r.1, r.2)

/-- Removal, `BTreeMap::remove`: returns the map without the key together
with the removed value. -/
def SMap.remove {α : Type} : SMap α → String → SMap α × Option α
  | [], _ => ([], none)
  | (k, w) :: rest, key =>
    if key = k then (rest, some w)
    else
      let r := SMap.remove rest key
      ((k, w) :: r.1, r.2)

/-- Embedding of `Rep3PrimeFieldShare<F>`: the two correlated sub-shares
`(a, b)` a party holds under the replicated scheme. -/
abbrev Rep3Share (F : Type) := F × F

/-- Embedding of `Rep3ShareVecType<F, U>` (mpc-core): the four share
encodings of a vector.  The payloads of the two seeded variants live in
mpc-core outside the sources, so they are a type parameter `σ`. -/
inductive Rep3ShareVecType (F σ : Type) where
  | Replicated : List (Rep3Share F) → Rep3ShareVecType F σ
  | SeededReplicated : σ → Rep3ShareVecType F σ
  | Additive : List F → Rep3ShareVecType F σ
  | SeededAdditive : σ → Rep3ShareVecType F σ
deriving DecidableEq

/-- Embedding of `MaybeRep3ShareVecType<F>` (mpc-core): share vectors with
possibly absent elements, in the two scheme variants the source matches
on. -/
inductive MaybeRep3ShareVecType (F : Type) where
  | Replicated : List (Option (Rep3Share F)) → MaybeRep3ShareVecType F
  | Additive : List (Option F) → MaybeRep3ShareVecType F
deriving DecidableEq

/-- Embedding of `SerializeableSharedRep3Input<F, U>` (lib.rs, lines
73–96): the four named collections of one provider's contribution. -/
structure SerializeableSharedRep3Input (F σ : Type) where
  public_inputs : SMap (List F)
  maybe_public_inputs : SMap (List (Option F))
  shared_inputs : SMap (Rep3ShareVecType F σ)
  maybe_shared_inputs : SMap (MaybeRep3ShareVecType F)
deriving DecidableEq

/-- Embedding of `SharedInput<F, S>` (lib.rs, lines 299–317): the two
resolved collections. -/
structure SharedInput (F S : Type) where
  public_inputs : SMap (List F)
  shared_inputs : SMap (List S)
deriving DecidableEq

/-- Failure modes of the merge operations: `err` embeds an
`eyre::bail!`-style error value returned to the caller, `panicked` embeds
a `todo!()` panic (an unimplemented path that aborts instead of returning
an error). -/
inductive MergeError where
  | err : String → MergeError
  | panicked : MergeError
deriving DecidableEq

/-- Result type of the fallible merge operations. -/
abbrev MergeResult (α : Type) := Except MergeError α

/-- Collecting a list of options into an option of a list exactly when
every element is present — `collect::<Option<Vec<_>>>()`. -/
def collectSome {S : Type} : List (Option S) → Option (List S)
  | [] => some []
  | none :: _ => none
  | some v :: rest => (collectSome rest).map (fun r => v :: r)

/-- Validation loop over `other.public_inputs` shared by both merge
entry points (lib.rs, lines 186–193 and 518–525): every key of `other`
must exist in `self` with the identical value list. -/
def check_public_inputs {F : Type} [DecidableEq F] (self : SMap (List F)) :
    List (String × List F) → MergeResult Unit
  | [] => .ok ()
  | (key, value) :: rest =>
    match SMap.find? self key with
    | none => .error (.err "Public input must be present in all files")
    | some mine =>
      if mine = value then check_public_inputs self rest
      else .error (.err "Public input must be same in all files")

/-- Per-index merge of one maybe-public column in the pairwise merge
(lib.rs, lines 205–213): both concrete is an error, exactly one concrete
keeps the value, and the `(None, None)` arm is `continue` — the index is
skipped, not kept as an absent entry. -/
def merge_maybe_public_col {F : Type} :
    List (Option F) → List (Option F) → MergeResult (List (Option F))
  | [], _ => .ok []
  | _ :: _, [] => .ok []
  | m :: ms, t :: ts =>
    match m, t with
    | some _, some _ => .error (.err "Same index for maybe shared public inputs")
    | some v, none => (merge_maybe_public_col ms ts).map (fun r => some v :: r)
    | none, some v => (merge_maybe_public_col ms ts).map (fun r => some v :: r)
    | none, none => merge_maybe_public_col ms ts

/-- Loop over `other.maybe_public_inputs` in the pairwise merge (lib.rs,
lines 195–215): only keys of `other` are visited (a key staged only in
`self` is silently dropped); a visited key must not be in `self`'s public
inputs and must be staged in `self`'s maybe-public inputs. -/
def merge_maybe_publics {F : Type} (self_pub : SMap (List F))
    (self_maybe : SMap (List (Option F))) :
    List (String × List (Option F)) → MergeResult (SMap (List (Option F)))
  | [] => .ok []
  | (key, theirs) :: rest =>
    if SMap.containsKey self_pub key then
      .error (.err "present in public inputs and maybe public inputs")
    else
      match SMap.find? self_maybe key with
      | none => .error (.err "is must be present in both maybe public inputs")
      | some mine => do
        let merged ← merge_maybe_public_col mine theirs
        let acc ← merge_maybe_publics self_pub self_maybe rest
        .ok (SMap.insert acc key merged).1

/-- Loop over `other.shared_inputs` shared by both merge entry points
(lib.rs, lines 217–227 and 507–517): keys must be disjoint from the
accumulated shared keys and from both sides' public keys; merge is
union. -/
def merge_shared {F α : Type} (self_pub other_pub : SMap (List F)) :
    SMap α → List (String × α) → MergeResult (SMap α)
  | acc, [] => .ok acc
  | acc, (key, value) :: rest =>
    if SMap.containsKey acc key then
      .error (.err "Input with name present in multiple input shares")
    else if SMap.containsKey self_pub key || SMap.containsKey other_pub key then
      .error (.err "Input name is once in shared inputs and once in public inputs")
    else merge_shared self_pub other_pub (SMap.insert acc key value).1 rest

/-- Per-index merge of one maybe-shared column in the pairwise merge
(lib.rs, lines 246–254 and 266–274): both concrete is an error even when
the two values are equal; absent indices are kept as `none`. -/
def merge_maybe_vec {S : Type} :
    List (Option S) → List (Option S) → MergeResult (List (Option S))
  | [], _ => .ok []
  | _ :: _, [] => .ok []
  | a :: xs, b :: ys =>
    match a, b with
    | none, none => (merge_maybe_vec xs ys).map (fun r => none :: r)
    | some v, none => (merge_maybe_vec xs ys).map (fun r => some v :: r)
    | none, some v => (merge_maybe_vec xs ys).map (fun r => some v :: r)
    | some _, some _ => .error (.err "Input present in both unmerged inputs")

/-- Loop over the zipped maybe-shared entries of the pairwise merge
(lib.rs, lines 233–286): keys must agree pairwise and scheme tags must
match; a merged column with every index concrete is promoted into the
running `shared_inputs`, otherwise it stays staged. -/
def merge_maybe_shared_pairs {F σ : Type} :
    SMap (Rep3ShareVecType F σ) → SMap (MaybeRep3ShareVecType F) →
    List ((String × MaybeRep3ShareVecType F) × (String × MaybeRep3ShareVecType F)) →
    MergeResult (SMap (Rep3ShareVecType F σ) × SMap (MaybeRep3ShareVecType F))
  | sacc, macc, [] => .ok (sacc, macc)
  | sacc, macc, ((k1, v1), (k2, v2)) :: rest =>
    if k1 ≠ k2 then
      .error (.err "Both inputs must have the same keys for unmerged elements")
    else
      match v1, v2 with
      | .Replicated shares, .Replicated other_shares => do
        let merged ← merge_maybe_vec shares other_shares
        match collectSome merged with
        | some full =>
          merge_maybe_shared_pairs (SMap.insert sacc k1 (.Replicated full)).1 macc rest
        | none =>
          merge_maybe_shared_pairs sacc (SMap.insert macc k1 (.Replicated merged)).1 rest
      | .Additive shares, .Additive other_shares => do
        let merged ← merge_maybe_vec shares other_shares
        match collectSome merged with
        | some full =>
          merge_maybe_shared_pairs (SMap.insert sacc k1 (.Additive full)).1 macc rest
        | none =>
          merge_maybe_shared_pairs sacc (SMap.insert macc k1 (.Additive merged)).1 rest
      | _, _ => .error (.err "Input cannot be merged, the share type is different")

/-- Embedding of `SerializeableSharedRep3Input::merge` (lib.rs, lines
180–294), in source order: validate `other`'s public inputs against
`self`'s, merge the maybe-public columns staged in `other`, union the
shared inputs, then merge the maybe-shared columns pairwise over the
zipped (key-ordered) entries. -/
def SerializeableSharedRep3Input.merge {F σ : Type} [DecidableEq F]
    (self other : SerializeableSharedRep3Input F σ) :
    MergeResult (SerializeableSharedRep3Input F σ) := do
  check_public_inputs self.public_inputs other.public_inputs
  let maybe_merged ←
    merge_maybe_publics self.public_inputs self.maybe_public_inputs other.maybe_public_inputs
  let shared ←
    merge_shared self.public_inputs other.public_inputs self.shared_inputs other.shared_inputs
  if self.maybe_shared_inputs.length ≠ other.maybe_shared_inputs.length then
    .error (.err "Both inputs must have the same number of unmerged entries")
  else do
    let r ← merge_maybe_shared_pairs shared []
      (self.maybe_shared_inputs.zip other.maybe_shared_inputs)
    .ok { public_inputs := self.public_inputs
          maybe_public_inputs := maybe_merged
          shared_inputs := r.1
          maybe_shared_inputs := r.2 }

/-- Embedding of `SharedInput::add_public_input` (lib.rs, lines 494–496):
an unconditional `BTreeMap::insert`, with no validation and no error
path. -/
def SharedInput.add_public_input {F S : Type} (s : SharedInput F S)
    (key : String) (elements : List F) : SharedInput F S :=
  { s with public_inputs := (SMap.insert s.public_inputs key elements).1 }

/-- Embedding of `SharedInput::add_shared_input` (lib.rs, lines 499–501):
an unconditional `BTreeMap::insert`, with no validation and no error
path. -/
def SharedInput.add_shared_input {F S : Type} (s : SharedInput F S)
    (key : String) (elements : List S) : SharedInput F S :=
  { s with shared_inputs := (SMap.insert s.shared_inputs key elements).1 }

/-- Embedding of `SharedInput::merge` (lib.rs, lines 504–531), in source
order: union the shared inputs under the disjointness and
public-collision checks, then validate `other`'s public inputs against
`self`'s. -/
def SharedInput.merge {F S : Type} [DecidableEq F]
    (self other : SharedInput F S) : MergeResult (SharedInput F S) := do
  let shared ←
    merge_shared self.public_inputs other.public_inputs self.shared_inputs other.shared_inputs
  check_public_inputs self.public_inputs other.public_inputs
  .ok { public_inputs := self.public_inputs, shared_inputs := shared }

/-!
The N-ary `SharedInput::build_from_sources` (lib.rs, lines 358–487).
-/

/-- Accumulator of the `build_from_sources` fold: the resolved
collections being built, plus the two staging collections. -/
structure BuildAcc (F : Type) where
  pubs : SMap (List F)
  shareds : SMap (List (Rep3Share F))
  maybe_publics : SMap (List (Option F))
  maybe_shared : SMap (MaybeRep3ShareVecType F)

/-- Per-source loop over `source.public_inputs` (lib.rs, lines 369–375):
insert, and fail when a previously inserted value differs. -/
def build_publics {F : Type} [DecidableEq F] (pubs : SMap (List F)) :
    List (String × List F) → MergeResult (SMap (List F))
  | [] => .ok pubs
  | (k, v) :: rest =>
    let r := SMap.insert pubs k v
    match r.2 with
    | some old =>
      if old ≠ v then .error (.err "public inputs must match from sources")
      else build_publics r.1 rest
    | none => build_publics r.1 rest

/-- Per-source loop over `source.shared_inputs` (lib.rs, lines 377–388):
only the `Replicated` scheme is implemented; the `SeededReplicated`,
`Additive` and `SeededAdditive` arms are literal `todo!()` panics. -/
def build_shareds {F σ : Type} (sh : SMap (List (Rep3Share F))) :
    List (String × Rep3ShareVecType F σ) → MergeResult (SMap (List (Rep3Share F)))
  | [] => .ok sh
  | (k, v) :: rest =>
    match v with
    | .Replicated rep3 =>
      let r := SMap.insert sh k rep3
      if r.2.isSome then .error (.err "cannot provide multiple shared inputs with same key")
      else build_shareds r.1 rest
    | .SeededReplicated _ => .error .panicked
    | .Additive _ => .error .panicked
    | .SeededAdditive _ => .error .panicked

/-- Per-index merge of two maybe columns in `build_from_sources` (lib.rs,
lines 397–407 and 425–435): unlike the pairwise merge, both concrete with
equal values is accepted, only differing concrete values fail; absent
indices are kept as `none`. -/
def build_merge_opt_col {S : Type} [DecidableEq S] :
    List (Option S) → List (Option S) → MergeResult (List (Option S))
  | [], _ => .ok []
  | _ :: _, [] => .ok []
  | m :: ms, t :: ts =>
    match m, t with
    | some a, some b =>
      if a ≠ b then .error (.err "maybe public inputs must be same!")
      else (build_merge_opt_col ms ts).map (fun r => some a :: r)
    | some a, none => (build_merge_opt_col ms ts).map (fun r => some a :: r)
    | none, some b => (build_merge_opt_col ms ts).map (fun r => some b :: r)
    | none, none => (build_merge_opt_col ms ts).map (fun r => none :: r)

/-- Per-source loop over `source.maybe_public_inputs` (lib.rs, lines
390–414): merge with the already staged column of the same key (lengths
must agree), or stage the column as is. -/
def build_maybe_publics {F : Type} [DecidableEq F] (acc : SMap (List (Option F))) :
    List (String × List (Option F)) → MergeResult (SMap (List (Option F)))
  | [] => .ok acc
  | (k, v) :: rest =>
    let r := SMap.remove acc k
    match r.2 with
    | some mine =>
      if mine.length ≠ v.length then .error (.err "maybe public inputs must be same length")
      else do
        let merged ← build_merge_opt_col mine v
        build_maybe_publics (SMap.insert r.1 k merged).1 rest
    | none => build_maybe_publics (SMap.insert r.1 k v).1 rest

/-- Per-source loop over `source.maybe_shared_inputs` (lib.rs, lines
416–456): merge two `Replicated` columns index-wise; every other scheme
combination is a literal `todo!()` panic. -/
def build_maybe_shareds {F : Type} [DecidableEq F] (acc : SMap (MaybeRep3ShareVecType F)) :
    List (String × MaybeRep3ShareVecType F) → MergeResult (SMap (MaybeRep3ShareVecType F))
  | [] => .ok acc
  | (k, theirs) :: rest =>
    let r := SMap.remove acc k
    match r.2 with
    | some mine =>
      match mine, theirs with
      | .Replicated ms, .Replicated ts => do
        let merged ← build_merge_opt_col ms ts
        build_maybe_shareds (SMap.insert r.1 k (.Replicated merged)).1 rest
      | _, _ => .error .panicked
    | none => build_maybe_shareds (SMap.insert r.1 k theirs).1 rest

/-- Processing of one source inside the `build_from_sources` fold
(lib.rs, lines 368–457), in source order: public inputs, shared inputs,
maybe-public inputs, maybe-shared inputs. -/
def build_process_source {F σ : Type} [DecidableEq F] (st : BuildAcc F)
    (source : SerializeableSharedRep3Input F σ) : MergeResult (BuildAcc F) := do
  let pubs ← build_publics st.pubs source.public_inputs
  let shareds ← build_shareds st.shareds source.shared_inputs
  let mpubs ← build_maybe_publics st.maybe_publics source.maybe_public_inputs
  let mshared ← build_maybe_shareds st.maybe_shared source.maybe_shared_inputs
  .ok ⟨pubs, shareds, mpubs, mshared⟩

/-- Final resolution of the staged maybe-public columns (lib.rs, lines
459–468): no collision with resolved publics, no remaining absent index,
then promotion. -/
def resolve_maybe_publics {F : Type} (pubs : SMap (List F)) :
    List (String × List (Option F)) → MergeResult (SMap (List F))
  | [] => .ok pubs
  | (k, v) :: rest =>
    if SMap.containsKey pubs k then
      .error (.err "key present in maybe shared and in public input")
    else
      match collectSome v with
      | none => .error (.err "Still unmerged public input")
      | some vals => resolve_maybe_publics (SMap.insert pubs k vals).1 rest

/-- Final resolution of the staged maybe-shared columns (lib.rs, lines
470–484): no collision with resolved shared inputs, no remaining absent
index, then promotion; the `Additive` arm is a literal `todo!()` panic. -/
def resolve_maybe_shared {F : Type} (sh : SMap (List (Rep3Share F))) :
    List (String × MaybeRep3ShareVecType F) → MergeResult (SMap (List (Rep3Share F)))
  | [] => .ok sh
  | (k, v) :: rest =>
    if SMap.containsKey sh k then
      .error (.err "key present in maybe shared and in shared input")
    else
      match v with
      | .Replicated rep3 =>
        match collectSome rep3 with
        | none => .error (.err "Still unmerged public input")
        | some vals => resolve_maybe_shared (SMap.insert sh k vals).1 rest
      | .Additive _ => .error .panicked

/-- Embedding of `SharedInput::build_from_sources` (lib.rs, lines
358–487): fold every source into the accumulator, then resolve and
promote the two staging collections. -/
def build_from_sources {F σ : Type} [DecidableEq F]
    (sources : List (SerializeableSharedRep3Input F σ)) :
    MergeResult (SharedInput F (Rep3Share F)) := do
  let st ← sources.foldlM build_process_source ⟨[], [], [], []⟩
  let pubs ← resolve_maybe_publics st.pubs st.maybe_publics
  let sh ← resolve_maybe_shared st.shareds st.maybe_shared
  .ok { public_inputs := pubs, shared_inputs := sh }

/-!
Witness sharing, `co-circom/co-circom-snarks/src/lib.rs` lines 534–616.
The `rep3::share_field_elements*` and `shamir::share_field_elements`
primitives live in mpc-core outside the sources and are modelled from the
spec; the slicing into public prefix and secret suffix, which panics when
the split point exceeds the witness length, is from the source.
-/

/-- Embedding of `circom_types::Witness<F>` by its value vector. -/
structure Witness (F : Type) where
  values : List F
deriving DecidableEq

/-- Pointwise combination of three lists, truncating at the shortest. -/
def zip3With {α β γ δ : Type} (f : α → β → γ → δ) :
    List α → List β → List γ → List δ
  | x :: xs, y :: ys, z :: zs => f x y z :: zip3With f xs ys zs
  | _, _, _ => []

/-- Stream of pseudorandom field elements regenerated from a seed: `prg`
is the pre-agreed pseudorandom generator of the seeded schemes, `n` the
number of elements. -/
def prgList {F : Type} (prg : Nat → Nat → F) (seed n : Nat) : List F :=
  (List.range n).map (prg seed)

/-- Modelled from the spec: the third additive sub-share vector, chosen
so that the three sub-shares of each element sum to the element
(`share_field_elements*` in mpc-core draw the first two at random and
complete the third). -/
def third_share {F : Type} [CommRing F] (xs a b : List F) : List F :=
  zip3With (fun x ai bi => x - ai - bi) xs a b

/-- Modelled from the spec: `rep3::share_field_elements` (mpc-core, not
under the sources).  Per glossary, Rep3 gives each party two of the three
correlated sub-share vectors `a`, `b`, `c` with `a + b + c = x`; `r1` and
`r2` are the randomness streams for the two random vectors. -/
def share_field_elements {F : Type} [CommRing F] (xs : List F) (r1 r2 : Nat → F) :
    List (Rep3Share F) × List (Rep3Share F) × List (Rep3Share F) :=
  let a := (List.range xs.length).map r1
  let b := (List.range xs.length).map r2
  let c := third_share xs a b
  (a.zip c, b.zip a, c.zip b)

/-- Modelled from the spec: `rep3::share_field_elements_additive`
(mpc-core, not under the sources): each party holds one sub-share vector,
the sum over the parties reconstructs. -/
def share_field_elements_additive {F : Type} [CommRing F] (xs : List F) (r1 r2 : Nat → F) :
    List F × List F × List F :=
  let a := (List.range xs.length).map r1
  let b := (List.range xs.length).map r2
  (a, b, third_share xs a b)

/-- Seeded share material: either a seed from which a sub-share vector is
regenerated through the pre-agreed prg, or an explicitly stored vector
(the completed third sub-share cannot come from a seed). -/
inductive SeedOrShares (F : Type) where
  | seed : Nat → SeedOrShares F
  | shares : List F → SeedOrShares F
deriving DecidableEq

/-- Expansion of seeded share material to the full sub-share vector of
length `n`. -/
def expandSeeded {F : Type} (prg : Nat → Nat → F) (n : Nat) :
    SeedOrShares F → List F
  | .seed s => prgList prg s n
  | .shares v => v

/-- Payloads of the two seeded variants of `Rep3ShareVecType`
(`ReplicatedSeedType` / `SeededType` in mpc-core, not under the sources,
modelled from the spec): a replicated party stores material for its two
sub-share vectors, an additive party for its single one. -/
inductive SeededPayload (F : Type) where
  | rep : SeedOrShares F → SeedOrShares F → SeededPayload F
  | add : SeedOrShares F → SeededPayload F
deriving DecidableEq

/-- Modelled from the spec: `rep3::share_field_elements_seeded`
(mpc-core): the replicated sharing with the two random sub-share vectors
regenerable from the seeds `sA` and `sB`, halving the stored material;
the completed vector `c` is stored explicitly by the two parties holding
it. -/
def share_field_elements_seeded {F : Type} [CommRing F] (prg : Nat → Nat → F)
    (xs : List F) (sA sB : Nat) :
    SeededPayload F × SeededPayload F × SeededPayload F :=
  let a := prgList prg sA xs.length
  let b := prgList prg sB xs.length
  let c := third_share xs a b
  (.rep (.seed sA) (.shares c), .rep (.seed sB) (.seed sA), .rep (.shares c) (.seed sB))

/-- Modelled from the spec: `rep3::share_field_elements_additive_seeded`
(mpc-core): two parties hold only a seed, the third the completed
vector. -/
def share_field_elements_additive_seeded {F : Type} [CommRing F] (prg : Nat → Nat → F)
    (xs : List F) (sA sB : Nat) :
    SeededPayload F × SeededPayload F × SeededPayload F :=
  let a := prgList prg sA xs.length
  let b := prgList prg sB xs.length
  (.add (.seed sA), .add (.seed sB), .add (.shares (third_share xs a b)))

/-- Embedding of `SerializeableSharedRep3Input::share_rep3` (lib.rs,
lines 118–156): dispatch on the `(seeded, additive)` flags into the four
sharing primitives, tagging the three outputs with the chosen scheme. -/
def share_rep3_dispatch {F : Type} [CommRing F] (prg : Nat → Nat → F)
    (xs : List F) (r1 r2 : Nat → F) (sA sB : Nat) (seeded additive : Bool) :
    Rep3ShareVecType F (SeededPayload F) × Rep3ShareVecType F (SeededPayload F) ×
      Rep3ShareVecType F (SeededPayload F) :=
  match seeded, additive with
  | true, true =>
    let s := share_field_elements_additive_seeded prg xs sA sB
    (.SeededAdditive s.1, .SeededAdditive s.2.1, .SeededAdditive s.2.2)
  | true, false =>
    let s := share_field_elements_seeded prg xs sA sB
    (.SeededReplicated s.1, .SeededReplicated s.2.1, .SeededReplicated s.2.2)
  | false, true =>
    let s := share_field_elements_additive xs r1 r2
    (.Additive s.1, .Additive s.2.1, .Additive s.2.2)
  | false, false =>
    let s := share_field_elements xs r1 r2
    (.Replicated s.1, .Replicated s.2.1, .Replicated s.2.2)

/-- Modelled from the spec: reconstruction of the cleartext vector from
the three parties' share vectors under the scheme they are tagged with
(`n` is the vector length, needed to expand seeds); mismatched scheme
tags reconstruct nothing. -/
def reconstruct_share_vec {F : Type} [CommRing F] (prg : Nat → Nat → F) (n : Nat) :
    Rep3ShareVecType F (SeededPayload F) → Rep3ShareVecType F (SeededPayload F) →
      Rep3ShareVecType F (SeededPayload F) → Option (List F)
  | .Replicated s1, .Replicated s2, .Replicated s3 =>
    some (zip3With (fun p q r => p.1 + q.1 + r.1) s1 s2 s3)
  | .Additive a, .Additive b, .Additive c =>
    some (zip3With (fun u v w => u + v + w) a b c)
  | .SeededReplicated (.rep x1 _), .SeededReplicated (.rep x2 _),
      .SeededReplicated (.rep x3 _) =>
    some (zip3With (fun u v w => u + v + w)
      (expandSeeded prg n x1) (expandSeeded prg n x2) (expandSeeded prg n x3))
  | .SeededAdditive (.add x1), .SeededAdditive (.add x2), .SeededAdditive (.add x3) =>
    some (zip3With (fun u v w => u + v + w)
      (expandSeeded prg n x1) (expandSeeded prg n x2) (expandSeeded prg n x3))
  | _, _, _ => none

/-- Embedding of `SerializeableSharedRep3Witness<F, U>` (lib.rs, lines
20–33). -/
structure SerializeableSharedRep3Witness (F σ : Type) where
  public_inputs : List F
  witness : Rep3ShareVecType F σ
deriving DecidableEq

/-- Embedding of `SharedWitness<F, S>` (lib.rs, lines 51–68). -/
structure SharedWitness (F S : Type) where
  public_inputs : List F
  witness : List S
deriving DecidableEq

/-- Embedding of `SerializeableSharedRep3Witness::share_rep3` (lib.rs,
lines 541–567): slice the witness at `num_pub_inputs` — the slice
`&witness.values[..num_pub_inputs]` panics (`none`) when the split point
exceeds the length — then share the suffix under the flag-selected scheme
and copy the public prefix into all three outputs. -/
def SerializeableSharedRep3Witness.share_rep3 {F : Type} [CommRing F]
    (prg : Nat → Nat → F) (witness : Witness F) (num_pub_inputs : Nat)
    (r1 r2 : Nat → F) (sA sB : Nat) (seeded additive : Bool) :
    Option (SerializeableSharedRep3Witness F (SeededPayload F) ×
      SerializeableSharedRep3Witness F (SeededPayload F) ×
      SerializeableSharedRep3Witness F (SeededPayload F)) :=
  if num_pub_inputs ≤ witness.values.length then
    let public_inputs := witness.values.take num_pub_inputs
    let wit := witness.values.drop num_pub_inputs
    let s := share_rep3_dispatch prg wit r1 r2 sA sB seeded additive
    some (⟨public_inputs, s.1⟩, ⟨public_inputs, s.2.1⟩, ⟨public_inputs, s.2.2⟩)
  else none

/-- Embedding of `SharedWitness::share_rep3` (lib.rs, lines 572–594):
slice the witness at `num_pub_inputs` (panic on out of bounds), share the
suffix under the plain replicated scheme, copy the public prefix into all
three outputs. -/
def SharedWitness.share_rep3 {F : Type} [CommRing F] (witness : Witness F)
    (num_pub_inputs : Nat) (r1 r2 : Nat → F) :
    Option (SharedWitness F (Rep3Share F) × SharedWitness F (Rep3Share F) ×
      SharedWitness F (Rep3Share F)) :=
  if num_pub_inputs ≤ witness.values.length then
    let public_inputs := witness.values.take num_pub_inputs
    let wit := witness.values.drop num_pub_inputs
    let s := share_field_elements wit r1 r2
    some (⟨public_inputs, s.1⟩, ⟨public_inputs, s.2.1⟩, ⟨public_inputs, s.2.2⟩)
  else none

/-- Modelled from the spec: `shamir::share_field_elements` (mpc-core, not
under the sources): per element, a random polynomial of the given degree
with the element as constant term (`rc i j` is the `j`-th random
coefficient for element `i`), evaluated at the points `1, …,
num_parties`. -/
def shamir_share_field_elements {F : Type} [CommRing F] (xs : List F)
    (degree num_parties : Nat) (rc : Nat → Nat → F) : List (List F) :=
  (List.range num_parties).map (fun j =>
    xs.mapIdx (fun i x =>
      x + ((List.range degree).map (rc i)).foldr
        (fun cf acc => ((j + 1 : Nat) : F) * (cf + acc)) 0))

/-- Embedding of `SharedWitness::share_shamir` (lib.rs, lines 598–615):
slice the witness at `num_pub_inputs` (panic on out of bounds), Shamir
share the suffix, copy the public prefix into every output. -/
def SharedWitness.share_shamir {F : Type} [CommRing F] (witness : Witness F)
    (num_pub_inputs degree num_parties : Nat) (rc : Nat → Nat → F) :
    Option (List (SharedWitness F F)) :=
  if num_pub_inputs ≤ witness.values.length then
    let public_inputs := witness.values.take num_pub_inputs
    let wit := witness.values.drop num_pub_inputs
    some ((shamir_share_field_elements wit degree num_parties rc).map
      (fun share => ⟨public_inputs, share⟩))
  else none

/-- Modelled from the spec: reconstruction of a replicated-shared vector
from the three parties' shares — the first sub-shares of the three
parties sum to the secret. -/
def reconstruct_rep3 {F : Type} [CommRing F]
    (s1 s2 s3 : List (Rep3Share F)) : List F :=
  zip3With (fun p q r => p.1 + q.1 + r.1) s1 s2 s3

lemma zip3_add_third {F : Type} [CommRing F] :
    ∀ (xs a b : List F), a.length = xs.length → b.length = xs.length →
      zip3With (fun u v w => u + v + w) a b
        (zip3With (fun x ai bi => x - ai - bi) xs a b) = xs := by
  intro xs
  induction xs with
  | nil =>
    intro a b ha hb
    simp [zip3With]
  | cons x xs ih =>
    intro a b ha hb
    cases a with
    | nil => simp at ha
    | cons u us =>
      cases b with
      | nil => simp at hb
      | cons v vs =>
        simp only [List.length_cons, Nat.succ.injEq] at ha hb
        simp only [zip3With]
        rw [ih us vs ha hb]
        congr 1
        ring

lemma zip3_rep3_third {F : Type} [CommRing F] :
    ∀ (xs a b : List F), a.length = xs.length → b.length = xs.length →
      zip3With (fun p q r : F × F => p.1 + q.1 + r.1)
        (a.zip (zip3With (fun x ai bi => x - ai - bi) xs a b))
        (b.zip a)
        ((zip3With (fun x ai bi => x - ai - bi) xs a b).zip b) = xs := by
  intro xs
  induction xs with
  | nil =>
    intro a b ha hb
    simp [zip3With]
  | cons x xs ih =>
    intro a b ha hb
    cases a with
    | nil => simp at ha
    | cons u us =>
      cases b with
      | nil => simp at hb
      | cons v vs =>
        simp only [List.length_cons, Nat.succ.injEq] at ha hb
        simp only [zip3With, List.zip_cons_cons]
        have hih := ih us vs ha hb
        simp only [List.zip] at hih
        rw [hih]
        congr 1
        ring

/-- C5: for every witness vector and every split point not exceeding its
length, both `share_rep3` entry points produce exactly three outputs
whose public prefixes are mutually identical and equal to the first
`num_pub_inputs` witness values, and whose secret-shared suffixes
reconstruct, under the scheme chosen by the `(seeded, additive)` flags,
to the remaining witness values exactly. -/
theorem share_rep3_reconstructs {F : Type} [CommRing F]
    (prg : Nat → Nat → F) (w : Witness F) (k : Nat) (r1 r2 : Nat → F)
    (sA sB : Nat) (seeded additive : Bool) (h : k ≤ w.values.length) :
    (∃ o, SerializeableSharedRep3Witness.share_rep3 prg w k r1 r2 sA sB seeded additive
        = some o ∧
      o.1.public_inputs = w.values.take k ∧
      o.2.1.public_inputs = o.1.public_inputs ∧
      o.2.2.public_inputs = o.1.public_inputs ∧
      reconstruct_share_vec prg (w.values.length - k)
        o.1.witness o.2.1.witness o.2.2.witness = some (w.values.drop k)) ∧
    (∃ o, SharedWitness.share_rep3 w k r1 r2 = some o ∧
      o.1.public_inputs = w.values.take k ∧
      o.2.1.public_inputs = o.1.public_inputs ∧
      o.2.2.public_inputs = o.1.public_inputs ∧
      reconstruct_rep3 o.1.witness o.2.1.witness o.2.2.witness = w.values.drop k) := by
  have hd : (w.values.drop k).length = w.values.length - k := List.length_drop k w.values
  constructor
  · rw [SerializeableSharedRep3Witness.share_rep3, if_pos h]
    refine ⟨_, rfl, rfl, rfl, rfl, ?_⟩
    cases seeded <;> cases additive
    · simp only [share_rep3_dispatch, share_field_elements, reconstruct_share_vec,
        third_share]
      rw [zip3_rep3_third _ _ _ (by simp) (by simp)]
    · simp only [share_rep3_dispatch, share_field_elements_additive, reconstruct_share_vec,
        third_share]
      rw [zip3_add_third _ _ _ (by simp) (by simp)]
    · simp only [share_rep3_dispatch, share_field_elements_seeded, reconstruct_share_vec,
        third_share, expandSeeded, ← hd]
      rw [zip3_add_third _ _ _ (by simp [prgList]) (by simp [prgList])]
    · simp only [share_rep3_dispatch, share_field_elements_additive_seeded,
        reconstruct_share_vec, third_share, expandSeeded, ← hd]
      rw [zip3_add_third _ _ _ (by simp [prgList]) (by simp [prgList])]
  · rw [SharedWitness.share_rep3, if_pos h]
    refine ⟨_, rfl, rfl, rfl, rfl, ?_⟩
    simp only [share_field_elements, reconstruct_rep3, third_share]
    rw [zip3_rep3_third _ _ _ (by simp) (by simp)]

/-- C5 witness: sharing the integer witness `[10, 20, 30]` at split point
1 under the plain replicated scheme (with zero randomness) yields three
outputs with identical public prefix `[10]` and a suffix reconstructing
to `[20, 30]`. -/
theorem share_rep3_reconstructs_witness :
    ∃ o, SharedWitness.share_rep3 (F := ℤ) ⟨[10, 20, 30]⟩ 1 (fun _ => 0) (fun _ => 0)
        = some o ∧
      o.1.public_inputs = ([10, 20, 30] : List ℤ).take 1 ∧
      o.2.1.public_inputs = o.1.public_inputs ∧
      o.2.2.public_inputs = o.1.public_inputs ∧
      reconstruct_rep3 o.1.witness o.2.1.witness o.2.2.witness
        = ([10, 20, 30] : List ℤ).drop 1 :=
  (share_rep3_reconstructs (fun _ _ => 0) ⟨[10, 20, 30]⟩ 1 (fun _ => 0) (fun _ => 0)
    0 0 false false (by simp)).2

/-- C10: the three witness-sharing operations are total exactly under the
precondition `num_pub_inputs ≤ len(witness.values)`: for every shorter
witness the prefix slice is out of bounds and the operation panics
(`none`) instead of returning an error, and under the precondition the
out-of-bounds branch is unreachable (a result is always produced). -/
theorem witness_sharing_split_bound {F : Type} [CommRing F]
    (prg : Nat → Nat → F) (w : Witness F) (k degree num_parties : Nat)
    (r1 r2 : Nat → F) (sA sB : Nat) (seeded additive : Bool) (rc : Nat → Nat → F) :
    (w.values.length < k →
      SerializeableSharedRep3Witness.share_rep3 prg w k r1 r2 sA sB seeded additive
          = none ∧
      SharedWitness.share_rep3 w k r1 r2 = none ∧
      SharedWitness.share_shamir w k degree num_parties rc = none) ∧
    (k ≤ w.values.length →
      (SerializeableSharedRep3Witness.share_rep3 prg w k r1 r2 sA sB
        seeded additive).isSome = true ∧
      (SharedWitness.share_rep3 w k r1 r2).isSome = true ∧
      (SharedWitness.share_shamir w k degree num_parties rc).isSome = true) := by
  constructor
  · intro hlt
    have hn : ¬ k ≤ w.values.length := Nat.not_le.mpr hlt
    exact ⟨by rw [SerializeableSharedRep3Witness.share_rep3, if_neg hn],
      by rw [SharedWitness.share_rep3, if_neg hn],
      by rw [SharedWitness.share_shamir, if_neg hn]⟩
  · intro hle
    exact ⟨by rw [SerializeableSharedRep3Witness.share_rep3, if_pos hle]; rfl,
      by rw [SharedWitness.share_rep3, if_pos hle]; rfl,
      by rw [SharedWitness.share_shamir, if_pos hle]; rfl⟩

/-- C10 witness: splitting the length-2 integer witness `[1, 2]` at 3
panics in all three operations, while splitting it at 1 succeeds in all
three. -/
theorem witness_sharing_split_bound_witness :
    (SerializeableSharedRep3Witness.share_rep3 (F := ℤ) (fun _ _ => 0) ⟨[1, 2]⟩ 3
        (fun _ => 0) (fun _ => 0) 0 0 false false = none ∧
      SharedWitness.share_rep3 (F := ℤ) ⟨[1, 2]⟩ 3 (fun _ => 0) (fun _ => 0) = none ∧
      SharedWitness.share_shamir (F := ℤ) ⟨[1, 2]⟩ 3 1 3 (fun _ _ => 0) = none) ∧
    ((SerializeableSharedRep3Witness.share_rep3 (F := ℤ) (fun _ _ => 0) ⟨[1, 2]⟩ 1
        (fun _ => 0) (fun _ => 0) 0 0 false false).isSome = true ∧
      (SharedWitness.share_rep3 (F := ℤ) ⟨[1, 2]⟩ 1 (fun _ => 0) (fun _ => 0)).isSome
        = true ∧
      (SharedWitness.share_shamir (F := ℤ) ⟨[1, 2]⟩ 1 1 3 (fun _ _ => 0)).isSome
        = true) :=
  ⟨(witness_sharing_split_bound (fun _ _ => 0) ⟨[1, 2]⟩ 3 1 3 (fun _ => 0) (fun _ => 0)
      0 0 false false (fun _ _ => 0)).1 (by simp),
    (witness_sharing_split_bound (fun _ _ => 0) ⟨[1, 2]⟩ 1 1 3 (fun _ => 0) (fun _ => 0)
      0 0 false false (fun _ _ => 0)).2 (by simp)⟩

/-!
Lemmas on the map primitives and the per-column merge loops, shared by
the merge theorems below.
-/

lemma SMap.remove_cons_self {α : Type} (k : String) (v : α) (rest : SMap α) :
    SMap.remove ((k, v) :: rest) k = (rest, some v) := by
  simp [SMap.remove]

lemma SMap.find_cons_self {α : Type} (k : String) (v : α) (rest : SMap α) :
    SMap.find? ((k, v) :: rest) k = some v := by
  simp [SMap.find?]

lemma SMap.find_insert_self {α : Type} :
    ∀ (m : SMap α) (k : String) (v : α), ((SMap.insert m k v).1).find? k = some v := by
  intro m
  induction m with
  | nil =>
    intro k v
    simp [SMap.insert, SMap.find?]
  | cons p rest ih =>
    intro k v
    obtain ⟨k1, w⟩ := p
    by_cases h : k = k1
    · simp [SMap.insert, h, SMap.find?]
    · by_cases h2 : k < k1
      · simp [SMap.insert, h, h2, SMap.find?]
      · simp [SMap.insert, h, h2, SMap.find?, ih]

lemma build_merge_opt_col_compat {S : Type} [DecidableEq S] :
    ∀ (xs ys : List (Option S)),
      (∀ p ∈ xs.zip ys, ∀ a b, p.1 = some a → p.2 = some b → a = b) →
      build_merge_opt_col xs ys = .ok ((xs.zip ys).map (fun p => p.1.or p.2)) := by
  intro xs
  induction xs with
  | nil => intro ys _; cases ys <;> rfl
  | cons m ms ih =>
    intro ys hcomp
    cases ys with
    | nil => rfl
    | cons t ts =>
      have hrest := ih ts (fun p hp a b h1 h2 =>
        hcomp p (List.mem_cons_of_mem _ hp) a b h1 h2)
      cases m with
      | none =>
        cases t with
        | none => simp [build_merge_opt_col, hrest, Except.map, Option.or]
        | some b => simp [build_merge_opt_col, hrest, Except.map, Option.or]
      | some a =>
        cases t with
        | none => simp [build_merge_opt_col, hrest, Except.map, Option.or]
        | some b =>
          have hab : a = b :=
            hcomp (some a, some b) (List.mem_cons_self _ _) a b rfl rfl
          simp [build_merge_opt_col, hab, hrest, Except.map, Option.or]

lemma build_merge_opt_col_conflict {S : Type} [DecidableEq S] :
    ∀ (xs ys : List (Option S)),
      (∃ p ∈ xs.zip ys, ∃ a b, p.1 = some a ∧ p.2 = some b ∧ a ≠ b) →
      build_merge_opt_col xs ys = .error (.err "maybe public inputs must be same!") := by
  intro xs
  induction xs with
  | nil => rintro ys ⟨p, hp, -⟩; simp at hp
  | cons m ms ih =>
    rintro ys ⟨p, hp, a, b, h1, h2, hab⟩
    cases ys with
    | nil => simp at hp
    | cons t ts =>
      rw [List.zip_cons_cons, List.mem_cons] at hp
      rcases hp with rfl | hp
      · simp only at h1 h2
        subst h1; subst h2
        simp [build_merge_opt_col, hab]
      · have hrest := ih ts ⟨p, hp, a, b, h1, h2, hab⟩
        cases m with
        | none => cases t <;> simp [build_merge_opt_col, hrest, Except.map]
        | some x =>
          cases t with
          | none => simp [build_merge_opt_col, hrest, Except.map]
          | some y =>
            by_cases hxy : x = y
            · simp [build_merge_opt_col, hxy, hrest, Except.map]
            · simp [build_merge_opt_col, hxy]

lemma merge_maybe_vec_disjoint {S : Type} :
    ∀ (xs ys : List (Option S)),
      (∀ p ∈ xs.zip ys, p.1 = none ∨ p.2 = none) →
      merge_maybe_vec xs ys = .ok ((xs.zip ys).map (fun p => p.1.or p.2)) := by
  intro xs
  induction xs with
  | nil => intro ys _; cases ys <;> rfl
  | cons m ms ih =>
    intro ys hdis
    cases ys with
    | nil => rfl
    | cons t ts =>
      have hrest := ih ts (fun p hp => hdis p (List.mem_cons_of_mem _ hp))
      have hhead := hdis (m, t) (List.mem_cons_self _ _)
      cases m with
      | none => cases t <;> simp [merge_maybe_vec, hrest, Except.map, Option.or]
      | some a =>
        cases t with
        | none => simp [merge_maybe_vec, hrest, Except.map, Option.or]
        | some b => simp at hhead

lemma merge_maybe_vec_conflict {S : Type} :
    ∀ (xs ys : List (Option S)),
      (∃ p ∈ xs.zip ys, p.1 ≠ none ∧ p.2 ≠ none) →
      merge_maybe_vec xs ys = .error (.err "Input present in both unmerged inputs") := by
  intro xs
  induction xs with
  | nil => rintro ys ⟨p, hp, -⟩; simp at hp
  | cons m ms ih =>
    rintro ys ⟨p, hp, h1, h2⟩
    cases ys with
    | nil => simp at hp
    | cons t ts =>
      rw [List.zip_cons_cons, List.mem_cons] at hp
      rcases hp with rfl | hp
      · simp only at h1 h2
        obtain ⟨a, rfl⟩ := Option.ne_none_iff_exists'.mp h1
        obtain ⟨b, rfl⟩ := Option.ne_none_iff_exists'.mp h2
        simp [merge_maybe_vec]
      · have hrest := ih ts ⟨p, hp, h1, h2⟩
        cases m with
        | none => cases t <;> simp [merge_maybe_vec, hrest, Except.map]
        | some a =>
          cases t with
          | none => simp [merge_maybe_vec, hrest, Except.map]
          | some b => simp [merge_maybe_vec]

/-- Source with a single shared input under the `Additive` scheme, fed to
`build_from_sources`. -/
def srcAdditiveShared : SerializeableSharedRep3Input ℤ (SeededPayload ℤ) :=
  ⟨[], [], [("x", .Additive [1])], []⟩

/-- C3 counterexample: feeding `build_from_sources` a source whose shared
input is tagged `Additive` does not produce a descriptive error value —
it reaches the literal `todo!()` panic (the `panicked` outcome, distinct
from every `err` outcome). -/
theorem build_from_sources_additive_is_todo :
    build_from_sources [srcAdditiveShared] = .error .panicked := rfl

lemma build_maybe_shareds_pair_not_rep {F : Type} [DecidableEq F]
    (k : String) (m t : MaybeRep3ShareVecType F)
    (hmt : ∀ lm lt, ¬(m = .Replicated lm ∧ t = .Replicated lt)) :
    build_maybe_shareds [(k, m)] [(k, t)] = .error .panicked := by
  have hrem := SMap.remove_cons_self k m ([] : SMap (MaybeRep3ShareVecType F))
  cases m with
  | Replicated lm =>
    cases t with
    | Replicated lt => exact absurd ⟨rfl, rfl⟩ (hmt lm lt)
    | Additive lt => simp [build_maybe_shareds, hrem]
  | Additive lm => cases t <;> simp [build_maybe_shareds, hrem]

/-- C3 amended: whenever `build_from_sources` encounters a shared-input
entry whose scheme tag is not `Replicated`, or a maybe-shared pair of
entries whose scheme tags are not both `Replicated`, it panics on the
literal `todo!()` path instead of returning a descriptive "unsupported
combination" error value to the caller. -/
theorem build_from_sources_unimplemented_panics {F σ : Type} [DecidableEq F]
    (k : String) (v : Rep3ShareVecType F σ) (m t : MaybeRep3ShareVecType F)
    (hv : ∀ l, v ≠ .Replicated l)
    (hmt : ∀ lm lt, ¬(m = .Replicated lm ∧ t = .Replicated lt)) :
    build_from_sources [⟨[], [], [(k, v)], []⟩] = .error .panicked ∧
    build_from_sources [(⟨[], [], [], [(k, m)]⟩ : SerializeableSharedRep3Input F σ),
      ⟨[], [], [], [(k, t)]⟩] = .error .panicked := by
  constructor
  · cases v with
    | Replicated l => exact absurd rfl (hv l)
    | SeededReplicated s => rfl
    | Additive l => rfl
    | SeededAdditive s => rfl
  · have h1 : build_process_source (F := F) (σ := σ) ⟨[], [], [], []⟩
        ⟨[], [], [], [(k, m)]⟩ = .ok ⟨[], [], [], [(k, m)]⟩ := rfl
    have h2 : build_process_source (F := F) (σ := σ) ⟨[], [], [], [(k, m)]⟩
        ⟨[], [], [], [(k, t)]⟩ = .error .panicked := by
      have hms := build_maybe_shareds_pair_not_rep k m t hmt
      simp [build_process_source, build_publics, build_shareds, build_maybe_publics,
        hms, Bind.bind, Except.bind]
    simp [build_from_sources, List.foldlM, h1, h2, Bind.bind, Except.bind]

/-- C3 witness: a single source with an `Additive` shared input, and two
sources staging an `Additive` maybe-shared column under the same key,
both drive `build_from_sources` into the `todo!()` panic. -/
theorem build_from_sources_unimplemented_panics_witness :
    build_from_sources [(⟨[], [], [("x", .Additive [(1 : ℤ)])], []⟩ :
        SerializeableSharedRep3Input ℤ (SeededPayload ℤ))] = .error .panicked ∧
    build_from_sources [(⟨[], [], [], [("x", .Additive [])]⟩ :
        SerializeableSharedRep3Input ℤ (SeededPayload ℤ)),
      ⟨[], [], [], [("x", .Additive [])]⟩] = .error .panicked :=
  build_from_sources_unimplemented_panics "x" (.Additive [(1 : ℤ)])
    (.Additive []) (.Additive [])
    (fun _ h => Rep3ShareVecType.noConfusion h)
    (fun _ _ h => MaybeRep3ShareVecType.noConfusion h.1)

/-- Source staging one maybe-shared `Replicated` column whose only index
is concrete. -/
def srcOverlapEq : SerializeableSharedRep3Input ℤ (SeededPayload ℤ) :=
  ⟨[], [], [], [("x", .Replicated [some (3, 4)])]⟩

/-- C6 counterexample: two sources providing the same concrete value at
the same index of the same maybe-shared column make `build_from_sources`
succeed — it does not fail on equal overlapping concrete values, only on
differing ones. -/
theorem build_from_sources_equal_overlap_succeeds :
    build_from_sources [srcOverlapEq, srcOverlapEq]
      = .ok ⟨[], [("x", [((3 : ℤ), (4 : ℤ))])]⟩ := rfl

lemma resolve_maybe_shared_single {F : Type} (k : String)
    (merged : List (Option (Rep3Share F))) :
    resolve_maybe_shared [] [(k, .Replicated merged)]
      = match collectSome merged with
        | some full => .ok [(k, full)]
        | none => .error (.err "Still unmerged public input") := by
  rcases hcs : collectSome merged with _ | full <;>
    simp [resolve_maybe_shared, SMap.containsKey, SMap.find?, hcs, SMap.insert]

/-- C6 amended: `build_from_sources` fails on two sources providing
concrete values at the same index of the same maybe-shared column exactly
when the two concrete values differ; equal concrete duplicates are
accepted and merged, and the build then succeeds (promoting the column)
precisely when every index received some concrete value. -/
theorem build_from_sources_overlap_requires_equal {F σ : Type} [DecidableEq F]
    (k : String) (xs ys : List (Option (Rep3Share F))) :
    ((∃ p ∈ xs.zip ys, ∃ a b, p.1 = some a ∧ p.2 = some b ∧ a ≠ b) →
      build_from_sources
        [(⟨[], [], [], [(k, .Replicated xs)]⟩ : SerializeableSharedRep3Input F σ),
          ⟨[], [], [], [(k, .Replicated ys)]⟩]
        = .error (.err "maybe public inputs must be same!")) ∧
    ((∀ p ∈ xs.zip ys, ∀ a b, p.1 = some a → p.2 = some b → a = b) →
      build_from_sources
        [(⟨[], [], [], [(k, .Replicated xs)]⟩ : SerializeableSharedRep3Input F σ),
          ⟨[], [], [], [(k, .Replicated ys)]⟩]
        = match collectSome ((xs.zip ys).map (fun p => p.1.or p.2)) with
          | some full => .ok ⟨[], [(k, full)]⟩
          | none => .error (.err "Still unmerged public input")) := by
  have h1 : build_process_source (F := F) (σ := σ) ⟨[], [], [], []⟩
      ⟨[], [], [], [(k, .Replicated xs)]⟩
      = .ok ⟨[], [], [], [(k, .Replicated xs)]⟩ := rfl
  have hrem := SMap.remove_cons_self k (MaybeRep3ShareVecType.Replicated xs)
    ([] : SMap (MaybeRep3ShareVecType F))
  constructor
  · intro hconf
    have hcol := build_merge_opt_col_conflict xs ys hconf
    have h2 : build_maybe_shareds [(k, MaybeRep3ShareVecType.Replicated xs)]
        [(k, .Replicated ys)] = .error (.err "maybe public inputs must be same!") := by
      simp [build_maybe_shareds, hrem, hcol, Bind.bind, Except.bind]
    have h3 : build_process_source (F := F) (σ := σ) ⟨[], [], [], [(k, .Replicated xs)]⟩
        ⟨[], [], [], [(k, .Replicated ys)]⟩
        = .error (.err "maybe public inputs must be same!") := by
      simp [build_process_source, build_publics, build_shareds, build_maybe_publics,
        h2, Bind.bind, Except.bind]
    simp [build_from_sources, List.foldlM, h1, h3, Bind.bind, Except.bind]
  · intro hcomp
    have hcol := build_merge_opt_col_compat xs ys hcomp
    have h2 : build_maybe_shareds [(k, MaybeRep3ShareVecType.Replicated xs)]
        [(k, .Replicated ys)]
        = .ok [(k, .Replicated ((xs.zip ys).map (fun p => p.1.or p.2)))] := by
      simp [build_maybe_shareds, hrem, hcol, Bind.bind, Except.bind, SMap.insert]
    have h3 : build_process_source (F := F) (σ := σ) ⟨[], [], [], [(k, .Replicated xs)]⟩
        ⟨[], [], [], [(k, .Replicated ys)]⟩
        = .ok ⟨[], [], [], [(k, .Replicated ((xs.zip ys).map (fun p => p.1.or p.2)))]⟩ := by
      simp [build_process_source, build_publics, build_shareds, build_maybe_publics,
        h2, Bind.bind, Except.bind]
    have h4 := resolve_maybe_shared_single (F := F) k
      ((xs.zip ys).map (fun p => p.1.or p.2))
    rcases hcs : collectSome ((xs.zip ys).map (fun p => p.1.or p.2)) with _ | full <;>
      rw [hcs] at h4 <;>
      simp [build_from_sources, List.foldlM, h1, h3, h4, hcs, Bind.bind, Except.bind,
        resolve_maybe_publics, pure, Except.pure]

/-- C6 amended witness: differing concrete values at the same index fail
the build, while disjoint concrete values at distinct indices merge and
resolve to the full column. -/
theorem build_from_sources_overlap_requires_equal_witness :
    build_from_sources
      [(⟨[], [], [], [("x", .Replicated [some ((1 : ℤ), (2 : ℤ))])]⟩ :
          SerializeableSharedRep3Input ℤ (SeededPayload ℤ)),
        ⟨[], [], [], [("x", .Replicated [some ((3 : ℤ), (4 : ℤ))])]⟩]
      = .error (.err "maybe public inputs must be same!") ∧
    build_from_sources
      [(⟨[], [], [], [("x", .Replicated [some ((1 : ℤ), (2 : ℤ)), none])]⟩ :
          SerializeableSharedRep3Input ℤ (SeededPayload ℤ)),
        ⟨[], [], [], [("x", .Replicated [none, some ((5 : ℤ), (6 : ℤ))])]⟩]
      = .ok ⟨[], [("x", [((1 : ℤ), (2 : ℤ)), ((5 : ℤ), (6 : ℤ))])]⟩ := by
  constructor
  · exact (build_from_sources_overlap_requires_equal "x"
      [some ((1 : ℤ), (2 : ℤ))] [some ((3 : ℤ), (4 : ℤ))]).1
      ⟨(some ((1 : ℤ), (2 : ℤ)), some ((3 : ℤ), (4 : ℤ))), by simp,
        ((1 : ℤ), (2 : ℤ)), ((3 : ℤ), (4 : ℤ)), rfl, rfl, by decide⟩
  · exact (build_from_sources_overlap_requires_equal "x"
      [some ((1 : ℤ), (2 : ℤ)), none] [none, some ((5 : ℤ), (6 : ℤ))]).2
      (by intro p hp a b h1 h2; fin_cases hp <;> simp_all)

/-- Input staging one maybe-public column whose only index is absent. -/
def srcNoneMaybePub : SerializeableSharedRep3Input ℤ (SeededPayload ℤ) :=
  ⟨[], [("x", [none])], [], []⟩

/-- C7 counterexample: merging two inputs whose shared maybe-public
column is absent at its only index succeeds, but the merged staged column
is empty — the neither-side-concrete index is dropped (the `(None, None)`
arm is `continue`), so the merged column does not keep the index as an
unresolved entry and its length differs from the inputs' length 1. -/
theorem merge_drops_unresolved_maybe_public_index :
    SerializeableSharedRep3Input.merge srcNoneMaybePub srcNoneMaybePub
      = .ok ⟨[], [("x", [])], [], []⟩ := rfl

lemma merge_maybe_public_col_conflict {F : Type} :
    ∀ (xs ys : List (Option F)),
      (∃ p ∈ xs.zip ys, p.1 ≠ none ∧ p.2 ≠ none) →
      merge_maybe_public_col xs ys
        = .error (.err "Same index for maybe shared public inputs") := by
  intro xs
  induction xs with
  | nil => rintro ys ⟨p, hp, -⟩; simp at hp
  | cons m ms ih =>
    rintro ys ⟨p, hp, h1, h2⟩
    cases ys with
    | nil => simp at hp
    | cons t ts =>
      rw [List.zip_cons_cons, List.mem_cons] at hp
      rcases hp with rfl | hp
      · simp only at h1 h2
        obtain ⟨a, rfl⟩ := Option.ne_none_iff_exists'.mp h1
        obtain ⟨b, rfl⟩ := Option.ne_none_iff_exists'.mp h2
        simp [merge_maybe_public_col]
      · have hrest := ih ts ⟨p, hp, h1, h2⟩
        cases m with
        | none => cases t <;> simp [merge_maybe_public_col, hrest, Except.map]
        | some a =>
          cases t with
          | none => simp [merge_maybe_public_col, hrest, Except.map]
          | some b => simp [merge_maybe_public_col]

lemma merge_maybe_public_col_disjoint {F : Type} :
    ∀ (xs ys : List (Option F)),
      (∀ p ∈ xs.zip ys, p.1 = none ∨ p.2 = none) →
      merge_maybe_public_col xs ys
        = .ok (((xs.zip ys).filterMap (fun p => p.1.or p.2)).map some) := by
  intro xs
  induction xs with
  | nil => intro ys _; cases ys <;> rfl
  | cons m ms ih =>
    intro ys hdis
    cases ys with
    | nil => rfl
    | cons t ts =>
      have hrest := ih ts (fun p hp => hdis p (List.mem_cons_of_mem _ hp))
      have hhead := hdis (m, t) (List.mem_cons_self _ _)
      cases m with
      | none =>
        cases t <;> simp [merge_maybe_public_col, hrest, Except.map, Option.or]
      | some a =>
        cases t with
        | none => simp [merge_maybe_public_col, hrest, Except.map, Option.or]
        | some b => simp at hhead

/-- C7 corrected semantics of the maybe-public columns in the pairwise
merge: a key staged only in `other` is an error, but a key staged only in
`self` is silently dropped (the merged staging map is rebuilt from
`other`'s keys alone); per index, both sides concrete is an error and
exactly one side concrete keeps the value, but an index concrete on
neither side is dropped from the merged column (`continue`) rather than
kept as an absent entry, so the merged column can be shorter than the
inputs' columns. -/
theorem merge_maybe_public_semantics {F σ : Type} [DecidableEq F]
    (k : String) (xs ys : List (Option F)) :
    (SerializeableSharedRep3Input.merge
        (⟨[], [], [], []⟩ : SerializeableSharedRep3Input F σ) ⟨[], [(k, ys)], [], []⟩
      = .error (.err "is must be present in both maybe public inputs")) ∧
    (SerializeableSharedRep3Input.merge
        (⟨[], [(k, xs)], [], []⟩ : SerializeableSharedRep3Input F σ) ⟨[], [], [], []⟩
      = .ok ⟨[], [], [], []⟩) ∧
    ((∃ p ∈ xs.zip ys, p.1 ≠ none ∧ p.2 ≠ none) →
      SerializeableSharedRep3Input.merge
        (⟨[], [(k, xs)], [], []⟩ : SerializeableSharedRep3Input F σ) ⟨[], [(k, ys)], [], []⟩
        = .error (.err "Same index for maybe shared public inputs")) ∧
    ((∀ p ∈ xs.zip ys, p.1 = none ∨ p.2 = none) →
      SerializeableSharedRep3Input.merge
        (⟨[], [(k, xs)], [], []⟩ : SerializeableSharedRep3Input F σ) ⟨[], [(k, ys)], [], []⟩
        = .ok ⟨[], [(k, ((xs.zip ys).filterMap (fun p => p.1.or p.2)).map some)],
            [], []⟩) := by
  refine ⟨?_, rfl, fun hconf => ?_, fun hdis => ?_⟩
  · simp [SerializeableSharedRep3Input.merge, check_public_inputs, merge_maybe_publics,
      SMap.containsKey, SMap.find?, Bind.bind, Except.bind]
  · have hcol := merge_maybe_public_col_conflict xs ys hconf
    simp [SerializeableSharedRep3Input.merge, check_public_inputs, merge_maybe_publics,
      SMap.containsKey, SMap.find?, SMap.find_cons_self, hcol, Bind.bind, Except.bind]
  · have hcol := merge_maybe_public_col_disjoint xs ys hdis
    simp [SerializeableSharedRep3Input.merge, check_public_inputs, merge_maybe_publics,
      SMap.containsKey, SMap.find?, SMap.find_cons_self, hcol, Bind.bind, Except.bind,
      merge_shared, merge_maybe_shared_pairs, SMap.insert, pure, Except.pure]

/-- C7 witness: a concrete conflicting pair errors; a column concrete on
exactly one side per index keeps those values, and the neither-side index
in the middle is dropped, shrinking the column from length 3 to 2;
one-sided staging errors for `other` and is dropped for `self`. -/
theorem merge_maybe_public_semantics_witness :
    (SerializeableSharedRep3Input.merge
        (⟨[], [], [], []⟩ : SerializeableSharedRep3Input ℤ (SeededPayload ℤ))
        ⟨[], [("x", [some 1])], [], []⟩
      = .error (.err "is must be present in both maybe public inputs")) ∧
    (SerializeableSharedRep3Input.merge
        (⟨[], [("x", [some 1])], [], []⟩ :
          SerializeableSharedRep3Input ℤ (SeededPayload ℤ)) ⟨[], [], [], []⟩
      = .ok ⟨[], [], [], []⟩) ∧
    (SerializeableSharedRep3Input.merge
        (⟨[], [("x", [some 1])], [], []⟩ :
          SerializeableSharedRep3Input ℤ (SeededPayload ℤ)) ⟨[], [("x", [some 2])], [], []⟩
      = .error (.err "Same index for maybe shared public inputs")) ∧
    (SerializeableSharedRep3Input.merge
        (⟨[], [("x", [some 1, none, none])], [], []⟩ :
          SerializeableSharedRep3Input ℤ (SeededPayload ℤ))
        ⟨[], [("x", [none, none, some 2])], [], []⟩
      = .ok ⟨[], [("x", [some 1, some 2])], [], []⟩) := by
  refine ⟨(merge_maybe_public_semantics "x" ([] : List (Option ℤ)) [some 1]).1,
    (merge_maybe_public_semantics "x" [some (1 : ℤ)] []).2.1, ?_, ?_⟩
  · exact (merge_maybe_public_semantics "x" [some (1 : ℤ)] [some 2]).2.2.1
      ⟨(some 1, some 2), by simp, by simp, by simp⟩
  · exact (merge_maybe_public_semantics "x" [some (1 : ℤ), none, none]
      [none, none, some 2]).2.2.2 (by intro p hp; fin_cases hp <;> simp)

/-- Input staging one maybe-shared `Replicated` column with its single
index concrete. -/
def srcPromoteA : SerializeableSharedRep3Input ℤ (SeededPayload ℤ) :=
  ⟨[], [], [], [("x", .Replicated [some (1, 2)])]⟩

/-- Input staging the same maybe-shared column with its single index
absent. -/
def srcPromoteB : SerializeableSharedRep3Input ℤ (SeededPayload ℤ) :=
  ⟨[], [], [], [("x", .Replicated [none])]⟩

/-- C8 counterexample: the plain pairwise merge does promote a fully
resolved maybe-shared column — after merging, the key moved from
`maybe_shared_inputs` into `shared_inputs`, so the result's staged map no
longer contains the key and its `shared_inputs` strictly exceeds the
union (empty) of the two inputs' `shared_inputs`. -/
theorem merge_promotes_resolved_maybe_shared :
    SerializeableSharedRep3Input.merge srcPromoteA srcPromoteB
      = .ok ⟨[], [], [("x", .Replicated [((1 : ℤ), (2 : ℤ))])], []⟩ := rfl

lemma merge_maybe_shared_pairs_single {F σ : Type}
    (k : String) (xs ys : List (Option (Rep3Share F))) :
    merge_maybe_shared_pairs ([] : SMap (Rep3ShareVecType F σ)) []
        [((k, .Replicated xs), (k, .Replicated ys))]
      = (merge_maybe_vec xs ys).bind (fun merged =>
          match collectSome merged with
          | some full => .ok ([(k, .Replicated full)], [])
          | none => .ok ([], [(k, .Replicated merged)])) := by
  rcases hmv : merge_maybe_vec xs ys with e | merged
  · simp [merge_maybe_shared_pairs, hmv, Bind.bind, Except.bind]
  · rcases hcs : collectSome merged with _ | full <;>
      simp [merge_maybe_shared_pairs, hmv, hcs, Bind.bind, Except.bind, SMap.insert]

/-- C8 amended: the plain pairwise merge of two inputs staging the same
maybe-shared `Replicated` column promotes the merged column into
`shared_inputs` exactly when every index ended up concrete; only a column
with a remaining absent index stays in `maybe_shared_inputs` (and an
index concrete on both sides is an error, equal values included). -/
theorem merge_maybe_shared_promotion {F σ : Type} [DecidableEq F]
    (k : String) (xs ys : List (Option (Rep3Share F))) :
    ((∃ p ∈ xs.zip ys, p.1 ≠ none ∧ p.2 ≠ none) →
      SerializeableSharedRep3Input.merge
        (⟨[], [], [], [(k, .Replicated xs)]⟩ : SerializeableSharedRep3Input F σ)
        ⟨[], [], [], [(k, .Replicated ys)]⟩
        = .error (.err "Input present in both unmerged inputs")) ∧
    ((∀ p ∈ xs.zip ys, p.1 = none ∨ p.2 = none) →
      SerializeableSharedRep3Input.merge
        (⟨[], [], [], [(k, .Replicated xs)]⟩ : SerializeableSharedRep3Input F σ)
        ⟨[], [], [], [(k, .Replicated ys)]⟩
        = match collectSome ((xs.zip ys).map (fun p => p.1.or p.2)) with
          | some full => .ok ⟨[], [], [(k, .Replicated full)], []⟩
          | none =>
            .ok ⟨[], [], [], [(k, .Replicated ((xs.zip ys).map (fun p => p.1.or p.2)))]⟩) := by
  have hpairs := merge_maybe_shared_pairs_single (σ := σ) k xs ys
  constructor
  · intro hconf
    have hmv := merge_maybe_vec_conflict xs ys hconf
    rw [hmv] at hpairs
    simp [SerializeableSharedRep3Input.merge, check_public_inputs, merge_maybe_publics,
      merge_shared, hpairs, Bind.bind, Except.bind]
  · intro hdis
    have hmv := merge_maybe_vec_disjoint xs ys hdis
    rw [hmv] at hpairs
    simp only [Except.bind] at hpairs
    rcases hcs : collectSome ((xs.zip ys).map (fun p => p.1.or p.2)) with _ | full <;>
      rw [hcs] at hpairs <;>
      simp [SerializeableSharedRep3Input.merge, check_public_inputs, merge_maybe_publics,
        merge_shared, hpairs, hcs, Bind.bind, Except.bind, pure, Except.pure]

/-- C8 amended witness: a column fully concrete after merging is promoted
into `shared_inputs`; a column with a remaining absent index stays
staged; both sides concrete at an index errors even with equal values. -/
theorem merge_maybe_shared_promotion_witness :
    (SerializeableSharedRep3Input.merge
        (⟨[], [], [], [("x", .Replicated [some ((1 : ℤ), (2 : ℤ)), none])]⟩ :
          SerializeableSharedRep3Input ℤ (SeededPayload ℤ))
        ⟨[], [], [], [("x", .Replicated [none, some ((3 : ℤ), (4 : ℤ))])]⟩
      = .ok ⟨[], [], [("x", .Replicated [((1 : ℤ), (2 : ℤ)), ((3 : ℤ), (4 : ℤ))])], []⟩) ∧
    (SerializeableSharedRep3Input.merge
        (⟨[], [], [], [("x", .Replicated [some ((1 : ℤ), (2 : ℤ)), none])]⟩ :
          SerializeableSharedRep3Input ℤ (SeededPayload ℤ))
        ⟨[], [], [], [("x", .Replicated [none, none])]⟩
      = .ok ⟨[], [], [],
          [("x", .Replicated [some ((1 : ℤ), (2 : ℤ)), none])]⟩) ∧
    (SerializeableSharedRep3Input.merge
        (⟨[], [], [], [("x", .Replicated [some ((1 : ℤ), (2 : ℤ))])]⟩ :
          SerializeableSharedRep3Input ℤ (SeededPayload ℤ))
        ⟨[], [], [], [("x", .Replicated [some ((1 : ℤ), (2 : ℤ))])]⟩
      = .error (.err "Input present in both unmerged inputs")) := by
  refine ⟨?_, ?_, ?_⟩
  · exact (merge_maybe_shared_promotion "x" [some ((1 : ℤ), (2 : ℤ)), none]
      [none, some ((3 : ℤ), (4 : ℤ))]).2 (by intro p hp; fin_cases hp <;> simp)
  · exact (merge_maybe_shared_promotion "x" [some ((1 : ℤ), (2 : ℤ)), none]
      [none, none]).2 (by intro p hp; fin_cases hp <;> simp)
  · exact (merge_maybe_shared_promotion "x" [some ((1 : ℤ), (2 : ℤ))]
      [some ((1 : ℤ), (2 : ℤ))]).1
      ⟨(some ((1 : ℤ), (2 : ℤ)), some ((1 : ℤ), (2 : ℤ))), by simp, by simp, by simp⟩

/-- Shared input holding the name `x` in its shared collection. -/
def srcSharedX : SharedInput ℤ ℤ := ⟨[], [("x", [5])]⟩

/-- C9 counterexample: `add_public_input` with a name already present in
`shared_inputs` does not error — it has no error path at all — and
succeeds, leaving the name in both collections at once. -/
theorem add_public_input_no_validation :
    SharedInput.add_public_input srcSharedX "x" [7]
      = ⟨[("x", [7])], [("x", [(5 : ℤ)])]⟩ := rfl

lemma merge_shared_pub_collision {F α : Type} (self_pub other_pub : SMap (List F)) :
    ∀ (l : List (String × α)) (acc : SMap α),
      (∃ p ∈ l, SMap.containsKey self_pub p.1 = true) →
      ∃ e, merge_shared self_pub other_pub acc l = .error e := by
  intro l
  induction l with
  | nil => rintro acc ⟨p, hp, -⟩; simp at hp
  | cons q rest ih =>
    rintro acc ⟨p, hp, hcol⟩
    obtain ⟨k0, v0⟩ := q
    by_cases hc : SMap.containsKey acc k0
    · exact ⟨.err "Input with name present in multiple input shares",
        by simp [merge_shared, hc]⟩
    · by_cases hpub : (SMap.containsKey self_pub k0 || SMap.containsKey other_pub k0) = true
      · exact ⟨.err "Input name is once in shared inputs and once in public inputs",
          by simp [merge_shared, hc, hpub]⟩
      · rcases List.mem_cons.mp hp with rfl | hmem
        · simp only [Bool.or_eq_true] at hpub
          exact absurd (Or.inl hcol) hpub
        · obtain ⟨e, he⟩ := ih (SMap.insert acc k0 v0).1 ⟨p, hmem, hcol⟩
          exact ⟨e, by simp [merge_shared, hc, hpub, he]⟩

/-- C9 corrected: the direct construction operations perform no
validation — `add_public_input` and `add_shared_input` insert
unconditionally, overwriting a same-name entry of their own collection
and leaving the other collection untouched, so a name can end up in both
collections; only `merge` enforces the disjointness invariant, erroring
when a shared name of `other` already occurs among `self`'s public
names. -/
theorem shared_input_adds_are_unchecked {F S : Type} [DecidableEq F]
    (s : SharedInput F S) (k : String) (v : List F) (w : List S) :
    ((SharedInput.add_public_input s k v).public_inputs.find? k = some v) ∧
    ((SharedInput.add_public_input s k v).shared_inputs = s.shared_inputs) ∧
    ((SharedInput.add_shared_input s k w).shared_inputs.find? k = some w) ∧
    ((SharedInput.add_shared_input s k w).public_inputs = s.public_inputs) ∧
    (∀ other : SharedInput F S,
      (∃ p ∈ other.shared_inputs, SMap.containsKey s.public_inputs p.1 = true) →
      ∃ e, SharedInput.merge s other = .error e) := by
  refine ⟨SMap.find_insert_self _ _ _, rfl, SMap.find_insert_self _ _ _, rfl, ?_⟩
  intro other hcol
  obtain ⟨e, he⟩ := merge_shared_pub_collision s.public_inputs other.public_inputs
    other.shared_inputs s.shared_inputs hcol
  exact ⟨e, by simp [SharedInput.merge, he, Bind.bind, Except.bind]⟩

/-- C9 witness: adding the public name `x` over a shared `x` keeps both
entries and touches nothing else, and merging an input whose public
collection holds `x` with one whose shared collection holds `x` fails. -/
theorem shared_input_adds_are_unchecked_witness :
    ((SharedInput.add_public_input srcSharedX "x" [7]).public_inputs.find? "x"
      = some [(7 : ℤ)]) ∧
    ((SharedInput.add_public_input srcSharedX "x" [7]).shared_inputs
      = srcSharedX.shared_inputs) ∧
    ((SharedInput.add_shared_input srcSharedX "x" [9]).shared_inputs.find? "x"
      = some [(9 : ℤ)]) ∧
    ((SharedInput.add_shared_input srcSharedX "x" [9]).public_inputs
      = srcSharedX.public_inputs) ∧
    (∃ e, SharedInput.merge (⟨[("x", [7])], []⟩ : SharedInput ℤ ℤ) srcSharedX
      = .error e) := by
  have h := shared_input_adds_are_unchecked srcSharedX "x" [(7 : ℤ)] [(9 : ℤ)]
  have h5 := (shared_input_adds_are_unchecked
    (⟨[("x", [7])], []⟩ : SharedInput ℤ ℤ) "x" [(7 : ℤ)] [(9 : ℤ)]).2.2.2.2
    srcSharedX ⟨("x", [(5 : ℤ)]), by simp [srcSharedX], by decide⟩
  exact ⟨h.1, h.2.1, h.2.2.1, h.2.2.2.1, h5⟩

end CoSnarks
